import Mathlib

/-!
Verification of the Gopher crawler in gopher_client_08.py (the final,
most complete draft of the repository, which the other seven files are
earlier revisions of).  Raw bytes are modelled as lists of naturals
(each in 0..255); decoded text is modelled as lists of Unicode code
points.  Network and clock behaviour is modelled by oracle functions
passed explicitly to each definition that the Python code obtains from
sockets and time.time().
-/

namespace GopherCrawl

/-- Python str.isspace over all of Unicode (the set str.strip removes):
tab through carriage return (9..13), the separator controls 28..31,
space (32), next-line (133), no-break space (160), Ogham space mark
(5760), the en-quad..hair-space block (8192..8202), line and paragraph
separators (8232, 8233), narrow no-break space (8239), medium
mathematical space (8287) and ideographic space (12288). -/
def pyIsSpace (c : Nat) : Bool :=
  (9 ≤ c && c ≤ 13) || (28 ≤ c && c ≤ 32) || c == 133 || c == 160 || c == 5760 ||
  (8192 ≤ c && c ≤ 8202) || c == 8232 || c == 8233 || c == 8239 || c == 8287 || c == 12288

/-- Python str.lower restricted to ASCII letters (the hosts and
selectors the crawler compares are ASCII; full Unicode case mapping is
not needed by any claim). -/
def pyLower (c : Nat) : Nat :=
  if 65 ≤ c && c ≤ 90 then c + 32 else c

/-- Python str.strip: drop leading and trailing whitespace characters. -/
def pyStrip (s : List Nat) : List Nat :=
  ((s.dropWhile (fun c => pyIsSpace c)).reverse.dropWhile (fun c => pyIsSpace c)).reverse

/-- Leading |-strip and lower-casing applied by is_same_server before
comparing hostnames. -/
def stripLower (s : List Nat) : List Nat :=
  (pyStrip s).map pyLower

/-- is_same_server from gopher_client_08.py: hostnames are stripped and
lower-cased before comparison, ports compared exactly. -/
def is_same_server (host1 : List Nat) (port1 : Int) (host2 : List Nat) (port2 : Int) : Bool :=
  stripLower host1 == stripLower host2 && port1 == port2

/-- A UTF-8 continuation byte (0x80..0xBF). -/
def utf8Cont (b : Nat) : Bool := 128 ≤ b && b ≤ 191

/-- Does strict UTF-8 decoding of these bytes succeed?  Mirrors
CPython's strict decoder: rejects bytes 0x80..0xC1 and 0xF5..0xFF in
leading position, overlong encodings, surrogate code points
(0xED followed by 0xA0..0xBF) and code points above U+10FFFF. -/
def utf8Valid : List Nat → Bool
  | [] => true
  | b :: rest =>
    if b ≤ 127 then utf8Valid rest
    else if 194 ≤ b && b ≤ 223 then
      match rest with
      | c1 :: rest2 => utf8Cont c1 && utf8Valid rest2
      | [] => false
    else if b == 224 then
      match rest with
      | c1 :: c2 :: rest2 => (160 ≤ c1 && c1 ≤ 191) && utf8Cont c2 && utf8Valid rest2
      | _ => false
    else if (225 ≤ b && b ≤ 236) || b == 238 || b == 239 then
      match rest with
      | c1 :: c2 :: rest2 => utf8Cont c1 && utf8Cont c2 && utf8Valid rest2
      | _ => false
    else if b == 237 then
      match rest with
      | c1 :: c2 :: rest2 => (128 ≤ c1 && c1 ≤ 159) && utf8Cont c2 && utf8Valid rest2
      | _ => false
    else if b == 240 then
      match rest with
      | c1 :: c2 :: c3 :: rest2 =>
          (144 ≤ c1 && c1 ≤ 191) && utf8Cont c2 && utf8Cont c3 && utf8Valid rest2
      | _ => false
    else if 241 ≤ b && b ≤ 243 then
      match rest with
      | c1 :: c2 :: c3 :: rest2 => utf8Cont c1 && utf8Cont c2 && utf8Cont c3 && utf8Valid rest2
      | _ => false
    else if b == 244 then
      match rest with
      | c1 :: c2 :: c3 :: rest2 =>
          (128 ≤ c1 && c1 ≤ 143) && utf8Cont c2 && utf8Cont c3 && utf8Valid rest2
      | _ => false
    else false

/-- Worker for UTF-8 decoding with errors='replace'.  The first
argument is a fuel value that upper-bounds the number of remaining
bytes (each step consumes at least one byte, so the decode of a list l
is obtained with fuel l.length); it only makes the recursion structural
and never runs out before the input does. -/
def utf8ReplaceGo : Nat → List Nat → List Nat
  | 0, _ => []
  | f + 1, l =>
    match l with
    | [] => []
    | b :: rest =>
      if b ≤ 127 then b :: utf8ReplaceGo f rest
      else if 194 ≤ b && b ≤ 223 then
        match rest with
        | [] => [65533]
        | c1 :: rest2 =>
          if utf8Cont c1 then ((b - 192) * 64 + (c1 - 128)) :: utf8ReplaceGo f rest2
          else 65533 :: utf8ReplaceGo f rest
      else if b == 224 then
        match rest with
        | [] => [65533]
        | c1 :: rest2 =>
          if 160 ≤ c1 && c1 ≤ 191 then
            match rest2 with
            | [] => [65533]
            | c2 :: rest3 =>
              if utf8Cont c2 then
                ((b - 224) * 4096 + (c1 - 128) * 64 + (c2 - 128)) :: utf8ReplaceGo f rest3
              else 65533 :: utf8ReplaceGo f rest2
          else 65533 :: utf8ReplaceGo f rest
      else if (225 ≤ b && b ≤ 236) || b == 238 || b == 239 then
        match rest with
        | [] => [65533]
        | c1 :: rest2 =>
          if utf8Cont c1 then
            match rest2 with
            | [] => [65533]
            | c2 :: rest3 =>
              if utf8Cont c2 then
                ((b - 224) * 4096 + (c1 - 128) * 64 + (c2 - 128)) :: utf8ReplaceGo f rest3
              else 65533 :: utf8ReplaceGo f rest2
          else 65533 :: utf8ReplaceGo f rest
      else if b == 237 then
        match rest with
        | [] => [65533]
        | c1 :: rest2 =>
          if 128 ≤ c1 && c1 ≤ 159 then
            match rest2 with
            | [] => [65533]
            | c2 :: rest3 =>
              if utf8Cont c2 then
                ((b - 224) * 4096 + (c1 - 128) * 64 + (c2 - 128)) :: utf8ReplaceGo f rest3
              else 65533 :: utf8ReplaceGo f rest2
          else 65533 :: utf8ReplaceGo f rest
      else if b == 240 then
        match rest with
        | [] => [65533]
        | c1 :: rest2 =>
          if 144 ≤ c1 && c1 ≤ 191 then
            match rest2 with
            | [] => [65533]
            | c2 :: rest3 =>
              if utf8Cont c2 then
                match rest3 with
                | [] => [65533]
                | c3 :: rest4 =>
                  if utf8Cont c3 then
                    ((b - 240) * 262144 + (c1 - 128) * 4096 + (c2 - 128) * 64 + (c3 - 128)) ::
                      utf8ReplaceGo f rest4
                  else 65533 :: utf8ReplaceGo f rest3
              else 65533 :: utf8ReplaceGo f rest2
          else 65533 :: utf8ReplaceGo f rest
      else if 241 ≤ b && b ≤ 243 then
        match rest with
        | [] => [65533]
        | c1 :: rest2 =>
          if utf8Cont c1 then
            match rest2 with
            | [] => [65533]
            | c2 :: rest3 =>
              if utf8Cont c2 then
                match rest3 with
                | [] => [65533]
                | c3 :: rest4 =>
                  if utf8Cont c3 then
                    ((b - 240) * 262144 + (c1 - 128) * 4096 + (c2 - 128) * 64 + (c3 - 128)) ::
                      utf8ReplaceGo f rest4
                  else 65533 :: utf8ReplaceGo f rest3
              else 65533 :: utf8ReplaceGo f rest2
          else 65533 :: utf8ReplaceGo f rest
      else if b == 244 then
        match rest with
        | [] => [65533]
        | c1 :: rest2 =>
          if 128 ≤ c1 && c1 ≤ 143 then
            match rest2 with
            | [] => [65533]
            | c2 :: rest3 =>
              if utf8Cont c2 then
                match rest3 with
                | [] => [65533]
                | c3 :: rest4 =>
                  if utf8Cont c3 then
                    ((b - 240) * 262144 + (c1 - 128) * 4096 + (c2 - 128) * 64 + (c3 - 128)) ::
                      utf8ReplaceGo f rest4
                  else 65533 :: utf8ReplaceGo f rest3
              else 65533 :: utf8ReplaceGo f rest2
          else 65533 :: utf8ReplaceGo f rest
      else 65533 :: utf8ReplaceGo f rest

/-- UTF-8 decoding with errors='replace' as used by parse_gopher_menu:
invalid sequences become U+FFFD (65533); when the leading bytes of a
multi-byte sequence are valid but the sequence is not, they are all
consumed together (CPython's maximal subpart policy), otherwise a
single byte is consumed. -/
def utf8DecodeReplace (l : List Nat) : List Nat :=
  utf8ReplaceGo l.length l

/-- Python str.split on the two-character separator CR LF (13, 10),
keeping empty pieces, as used by parse_gopher_menu. -/
def splitCRLF : List Nat → List (List Nat)
  | [] => [[]]
  | 13 :: 10 :: rest => [] :: splitCRLF rest
  | c :: rest =>
    match splitCRLF rest with
    | [] => [[c]]
    | l :: ls => (c :: l) :: ls

/-- Python str.split on the tab character (9), keeping empty pieces. -/
def splitTab : List Nat → List (List Nat)
  | [] => [[]]
  | 9 :: rest => [] :: splitTab rest
  | c :: rest =>
    match splitTab rest with
    | [] => [[c]]
    | l :: ls => (c :: l) :: ls

/-- The digit-run grammar of Python int(...): a non-empty sequence of
ASCII decimal digits in which single underscores may appear between
two digits (8_0 parses, 8_, _8 and 8__0 do not). -/
def pyIntDigits : List Nat → Bool
  | [] => false
  | [c] => 48 ≤ c && c ≤ 57
  | c :: 95 :: rest => (48 ≤ c && c ≤ 57) && pyIntDigits rest
  | c :: rest => (48 ≤ c && c ≤ 57) && pyIntDigits rest

/-- Python int(...) on a decoded string: strip whitespace, an optional
sign, then a digit run per pyIntDigits, whose value ignores the
underscores; anything else raises ValueError (modelled as none).
Non-ASCII Unicode digits, which int also accepts, are not modelled -
no menu field in the verified properties contains them. -/
def pyParseInt (s : List Nat) : Option Int :=
  let t := pyStrip s
  let digits : List Nat → Option Nat := fun l =>
    if pyIntDigits l then
      some ((l.filter (fun c => c ≠ 95)).foldl (fun acc c => acc * 10 + (c - 48)) 0)
    else none
  match t with
  | 43 :: rest => (digits rest).map (fun n => (n : Int))
  | 45 :: rest => (digits rest).map (fun n => -(n : Int))
  | _ => (digits t).map (fun n => (n : Int))

/-- One parsed menu entry, as built by parse_gopher_menu: the leading
type character, then the four tab-separated fields. -/
structure Item where
  type : Nat
  display : List Nat
  selector : List Nat
  host : List Nat
  port : Int
deriving DecidableEq, Repr

/-- Port handling of parse_gopher_menu: int(parts[3]) with ValueError
falling back to 70, then the range check replacing ports outside
1..65535 by 70. -/
def parsePort (s : List Nat) : Int :=
  match pyParseInt s with
  | some p => if p ≤ 0 || 65535 < p then 70 else p
  | none => 70

/-- The line loop of parse_gopher_menu over the decoded, CRLF-split
lines: empty lines and the single-dot line are skipped (continue, not
break); a line whose tail splits into at least 4 tab fields becomes an
Item; shorter lines are dropped without producing anything. -/
def parseMenuLines : List (List Nat) → List Item
  | [] => []
  | line :: rest =>
    if line = [] || line = [46] then parseMenuLines rest
    else
      match line with
      | [] => parseMenuLines rest
      | t :: lrest =>
        let parts := splitTab lrest
        if 4 ≤ parts.length then
          { type := t
            display := parts.getD 0 []
            selector := parts.getD 1 []
            host := parts.getD 2 []
            port := parsePort (parts.getD 3 []) } :: parseMenuLines rest
        else parseMenuLines rest

/-- parse_gopher_menu from gopher_client_08.py: decode the raw bytes as
UTF-8 with replacement (this never raises, so the latin-1 fallback in
the source is dead code), split on CRLF and run the line loop. -/
def parse_gopher_menu (menuData : List Nat) : List Item :=
  parseMenuLines (splitCRLF (utf8DecodeReplace menuData))

/-- Python (c.isprintable() or c.isspace()) for the character a latin-1
byte decodes to: printable covers 0x20..0x7E and 0xA1..0xFF minus the
soft hyphen 0xAD; whitespace adds 9..13, 28..31, 0x85 and 0xA0. -/
def printableOrSpaceByte (b : Nat) : Bool :=
  (9 ≤ b && b ≤ 13) || (28 ≤ b && b ≤ 126) || b == 133 || (160 ≤ b && b ≤ 255 && b ≠ 173)

/-- The printable-character count of is_text_file over the latin-1
decode of the sample (same length as the sample). -/
def printableCount (sample : List Nat) : Nat :=
  (sample.filter printableOrSpaceByte).length

/-- The ratio test of is_text_file: printable_chars / len(sample) > 0.8,
stated exactly over naturals (the float comparison in the source agrees
with 5 * printable > 4 * length for all sample sizes up to 4096). -/
def printableRatioHigh (sample : List Nat) : Bool :=
  0 < sample.length && 4 * sample.length < 5 * printableCount sample

/-- The binary signature check of is_text_file, applied to the full
data: ZIP, PNG, GIF, BMP, JPEG, PDF magic numbers. -/
def hasBinarySignature (data : List Nat) : Bool :=
  data.take 2 == [80, 75] ||
  data.take 4 == [137, 80, 78, 71] ||
  data.take 3 == [71, 73, 70] ||
  data.take 2 == [66, 77] ||
  data.take 4 == [255, 216, 255, 224] ||
  data.take 5 == [37, 80, 68, 70, 45]

/-- is_text_file from gopher_client_08.py with the default sample size
of 4096 bytes.  Branch order follows the source: empty data is binary;
a sample that decodes as strict UTF-8 is text; otherwise the printable
ratio over the latin-1 decode is tested BEFORE the signature check, and
data that fails both the ratio test and the signature match defaults to
text. -/
def is_text_file (data : List Nat) : Bool :=
  if data = [] then false
  else
    let sample := data.take 4096
    if utf8Valid sample then true
    else if printableRatioHigh sample then true
    else if hasBinarySignature data then false
    else true

/-- check_external_server from gopher_client_08.py, with the actual TCP
connection attempt modelled by the oracle pn (host, port → reachable).
Empty-after-strip hosts and hosts containing a character below space or
above tilde are rejected before any connection attempt; otherwise the
stripped host is connected to. -/
def check_external_server (pn : List Nat → Int → Bool) (host : List Nat) (port : Int) : Bool :=
  if pyStrip host = [] then false
  else
    let h := pyStrip host
    if h.any (fun c => c < 32 || 126 < c) then false
    else pn h port

/-- Instrumentation: does control flow in check_external_server reach
the socket connection attempt for this host?  True exactly when neither
guard fires. -/
def probeReachesConnect (host : List Nat) : Bool :=
  pyStrip host ≠ [] && (pyStrip host).all (fun c => 32 ≤ c && c ≤ 126)

/-- Substring test (Python: needle in haystack). -/
def containsSub (needle : List Nat) : List Nat → Bool
  | [] => needle == []
  | c :: rest => needle.isPrefixOf (c :: rest) || containsSub needle rest

/-- is_problematic_resource from gopher_client_08.py.  Durations are
modelled as rationals (the source uses floats); the three keyword byte
strings are firehose, tarpit and godot, searched in the lower-cased
selector. -/
def is_problematic_resource (selector : List Nat) (fileSize : Nat) (downloadTime : ℚ) : Bool :=
  let lowered := selector.map pyLower
  containsSub [102, 105, 114, 101, 104, 111, 115, 101] lowered ||
  containsSub [116, 97, 114, 112, 105, 116] lowered ||
  containsSub [103, 111, 100, 111, 116] lowered ||
  (1024 * 1024 < fileSize && 15 < downloadTime) ||
  25 ≤ downloadTime

/-- Set-style insertion used for the Python sets invalid_references and
problematic_resources (append if not already present). -/
def insertSet (x : List Nat) (l : List (List Nat)) : List (List Nat) :=
  if x ∈ l then l else l ++ [x]

/-- Dict assignment file_sizes[selector] = n, modelled on an
association list. -/
def setSize (sel : List Nat) (n : Nat) : List (List Nat × Nat) → List (List Nat × Nat)
  | [] => [(sel, n)]
  | (k, v) :: rest => if k = sel then (sel, n) :: rest else (k, v) :: setSize sel n rest

/-- Dict lookup file_sizes.get(selector). -/
def lookupSize (sizes : List (List Nat × Nat)) (sel : List Nat) : Option Nat :=
  match sizes.find? (fun e => e.1 = sel) with
  | some e => some e.2
  | none => none

/-- The mutable state of main() in gopher_client_08.py.  The Python
sets and dicts are modelled as lists preserving insertion order; the
write-only download_times dict and the text_file_contents store (used
only for printing) are omitted.  fetchLog and probeLog are
instrumentation: they record, in order, each selector passed to the
Transport and each (host, port) key passed to the Prober. -/
structure CrawlState where
  visited : List (List Nat)
  directories : List (List Nat)
  textFiles : List (List Nat)
  binaryFiles : List (List Nat)
  invalidRefs : List (List Nat)
  externalServers : List ((List Nat × Int) × Bool)
  problematic : List (List Nat)
  fileSizes : List (List Nat × Nat)
  frontier : List (List Nat × List Nat × Int)
  processed : Nat
  fetchLog : List (List Nat)
  probeLog : List (List Nat × Int)
deriving DecidableEq, Repr

/-- The cross-server branch of the item loop: if the (host, port) key
is not yet in external_servers, the Prober is called and its result
recorded; otherwise nothing happens.  The entry is never pushed to the
frontier in either case. -/
def probeItem (pn : List Nat → Int → Bool) (st : CrawlState) (item : Item) : CrawlState :=
  let key := (item.host, item.port)
  if key ∈ st.externalServers.map Prod.fst then st
  else
    { st with
      externalServers := st.externalServers ++ [(key, check_external_server pn item.host item.port)]
      probeLog := st.probeLog ++ [key] }

/-- The body of the for-loop over menu items in main(): skip selectors
longer than 255 characters, route cross-server entries to the Prober,
then dispatch on the type character (49 directory, 48 text, 51 error,
105 info, anything else binary-like). -/
def processItem (ch : List Nat) (cp : Int) (pn : List Nat → Int → Bool)
    (st : CrawlState) (item : Item) : CrawlState :=
  if 255 < item.selector.length then st
  else if ¬ is_same_server ch cp item.host item.port then probeItem pn st item
  else if item.type = 49 then
    { st with frontier := st.frontier ++ [(item.selector, item.host, item.port)] }
  else if item.type = 48 then
    if item.selector ∉ st.textFiles ∧ item.selector ∉ st.binaryFiles then
      { st with
        textFiles := st.textFiles ++ [item.selector]
        frontier := st.frontier ++ [(item.selector, item.host, item.port)] }
    else st
  else if item.type = 51 then
    { st with invalidRefs := insertSet item.selector st.invalidRefs }
  else if item.type ≠ 105 then
    if item.selector ∉ st.binaryFiles ∧ item.selector ∉ st.textFiles then
      { st with
        binaryFiles := st.binaryFiles ++ [item.selector]
        frontier := st.frontier ++ [(item.selector, item.host, item.port)] }
    else st
  else st

/-- The directory branch of main(): record the selector as a directory
if new, then fold the item loop over the parsed menu entries. -/
def processDir (sel ch : List Nat) (cp : Int) (pn : List Nat → Int → Bool)
    (items : List Item) (st : CrawlState) : CrawlState :=
  let st1 := if sel ∈ st.directories then st else { st with directories := st.directories ++ [sel] }
  items.foldl (processItem ch cp pn) st1

/-- The leaf branch of main(): record the file size, then classify; a
selector already recorded in the other class is never reassigned. -/
def processLeaf (sel : List Nat) (response : List Nat) (st : CrawlState) : CrawlState :=
  let st1 := { st with fileSizes := setSize sel response.length st.fileSizes }
  if is_text_file response then
    if sel ∉ st1.binaryFiles then
      if sel ∉ st1.textFiles then { st1 with textFiles := st1.textFiles ++ [sel] } else st1
    else st1
  else
    if sel ∉ st1.textFiles then
      if sel ∉ st1.binaryFiles then { st1 with binaryFiles := st1.binaryFiles ++ [sel] } else st1
    else st1

/-- Processing of one popped (selector, host, port) triple, after the
frontier pop and processed_count increment have been applied by the
caller: skip if already visited, else mark visited, fetch (net models
send_gopher_request, dur models the measured request duration), record
an invalid reference on an empty response, flag problematic resources,
then branch on directory-versus-leaf exactly as main() does. -/
def processSelector (net : List Nat → Int → List Nat → List Nat)
    (dur : List Nat → Int → List Nat → ℚ) (pn : List Nat → Int → Bool)
    (sel ch : List Nat) (cp : Int) (st : CrawlState) : CrawlState :=
  if sel ∈ st.visited then st
  else
    let st1 := { st with visited := st.visited ++ [sel], fetchLog := st.fetchLog ++ [sel] }
    let response := net ch cp sel
    let t := dur ch cp sel
    if response = [] then { st1 with invalidRefs := insertSet sel st1.invalidRefs }
    else
      let st2 :=
        if is_problematic_resource sel response.length t then
          { st1 with problematic := insertSet sel st1.problematic }
        else st1
      let items := parse_gopher_menu response
      if items ≠ [] || sel == [] || sel.getLast? == some 47 then
        processDir sel ch cp pn items st2
      else processLeaf sel response st2

/-- The queue-size safety check at the top of the loop body of main():
truncate the frontier to its first max_queue_size entries when it has
grown beyond that. -/
def truncQueue (maxQueue : Nat) (st : CrawlState) : CrawlState :=
  if maxQueue < st.frontier.length then { st with frontier := st.frontier.take maxQueue }
  else st

/-- The while-loop of main().  The loop guard processed_count <
max_items, with processed_count incremented exactly once per
iteration, is realized structurally: the fuel argument is
max_items - processed_count, so mainCrawl below starts it at
max_items.  Each iteration applies the max_queue_size truncation, pops
the frontier head, increments processed and runs processSelector. -/
def crawlLoop (net : List Nat → Int → List Nat → List Nat)
    (dur : List Nat → Int → List Nat → ℚ) (pn : List Nat → Int → Bool)
    (maxQueue : Nat) : Nat → CrawlState → CrawlState
  | 0, st => st
  | fuel + 1, st =>
    if st.frontier = [] then st
    else
      match (truncQueue maxQueue st).frontier with
      | [] => truncQueue maxQueue st
      | (sel, ch, cp) :: rest =>
        crawlLoop net dur pn maxQueue fuel
          (processSelector net dur pn sel ch cp
            { truncQueue maxQueue st with
                frontier := rest, processed := (truncQueue maxQueue st).processed + 1 })

/-- The initial crawl state of main(): everything empty, the frontier
holding the root selector for the configured host and port. -/
def initState (host : List Nat) (port : Int) : CrawlState :=
  { visited := [], directories := [], textFiles := [], binaryFiles := []
    invalidRefs := [], externalServers := [], problematic := [], fileSizes := []
    frontier := [([], host, port)], processed := 0, fetchLog := [], probeLog := [] }

/-- The whole crawl of main(), with the source's hard-coded limits
max_queue_size = 1000 and max_items = 5000. -/
def mainCrawl (net : List Nat → Int → List Nat → List Nat)
    (dur : List Nat → Int → List Nat → ℚ) (pn : List Nat → Int → Bool)
    (host : List Nat) (port : Int) : CrawlState :=
  crawlLoop net dur pn 1000 5000 (initState host port)

/-- The external-server section of the printed report: entries whose
host contains a character above 127 are skipped (sorting of the
printed lines is presentation only and not modelled). -/
def reportedServers (ext : List ((List Nat × Int) × Bool)) : List ((List Nat × Int) × Bool) :=
  ext.filter (fun e => e.1.1.all (fun c => c ≤ 127))

/-- Comparison against the running minimum of main(): the sentinel
none models the float('inf') initial value, which every actual size is
below. -/
def ltSentinel (n : Nat) : Option Nat → Bool
  | none => true
  | some m => n < m

/-- The four running extreme variables of the statistics section of
main(): smallest file and its size (none / the inf sentinel when not
yet set), largest file and its size (0 when not yet set). -/
structure Extremes where
  smallestFile : Option (List Nat)
  smallestSize : Option Nat
  largestFile : Option (List Nat)
  largestSize : Nat
deriving DecidableEq, Repr

/-- The per-category statistics loop of main(): files without a
recorded size are skipped; a size strictly below the running minimum
or strictly above the running maximum updates the corresponding
extreme. -/
def extremesLoop (sizes : List Nat → Option Nat) : List (List Nat) → Extremes → Extremes
  | [], e => e
  | f :: rest, e =>
    match sizes f with
    | none => extremesLoop sizes rest e
    | some sz =>
      let e1 :=
        if ltSentinel sz e.smallestSize then
          { e with smallestFile := some f, smallestSize := some sz }
        else e
      let e2 :=
        if e1.largestSize < sz then { e1 with largestFile := some f, largestSize := sz } else e1
      extremesLoop sizes rest e2

/-- Size-extreme computation for one category in main(): problematic
resources are filtered out first (the clean list), then the loop runs
with the inf / 0 initial sentinels. -/
def computeExtremes (sizes : List Nat → Option Nat) (files problematic : List (List Nat)) :
    Extremes :=
  extremesLoop sizes (files.filter (fun f => f ∉ problematic)) ⟨none, none, none, 0⟩

/-- The report guard of main() for an extreme: printed only when the
file variable is truthy (a set, non-empty selector). -/
def reportExtreme (file : Option (List Nat)) (size : Option Nat) :
    Option (List Nat × Option Nat) :=
  match file with
  | some f => if f = [] then none else some (f, size)
  | none => none

/-- The receive loop of send_gopher_request in gopher_client_08.py.
times i is the elapsed wall-clock time (current_time - start_time)
read at the top of iteration i; chunks i is the outcome of the i-th
recv: some (c :: cs) is data, some [] is closure by the peer, none is
a socket.timeout exception.  Each iteration checks the size cap, reads
the clock and checks the wall-clock cap, then receives: data is
appended and last_progress becomes this iteration's clock reading; a
timed-out recv breaks only when the clock has moved more than the
socket timeout past last_progress, else the loop continues.  The loop
returns the bare bytes - the source has no other return channel.  The
fuel argument is an iteration budget used to STATE termination: none
means the loop has not exited within fuel iterations, and the
termination theorems exhibit sufficient budgets. -/
def recvLoop (maxData : Nat) (maxTime timeoutQ : ℚ) (times : Nat → ℚ)
    (chunks : Nat → Option (List Nat)) : Nat → Nat → List Nat → ℚ → Option (List Nat)
  | 0, _, _, _ => none
  | fuel + 1, i, data, lastProg =>
    if maxData < data.length then some data
    else if maxTime < times i then some data
    else
      match chunks i with
      | some [] => some data
      | some (c :: cs) =>
        recvLoop maxData maxTime timeoutQ times chunks fuel (i + 1) (data ++ c :: cs) (times i)
      | none =>
        if timeoutQ < times i - lastProg then some data
        else recvLoop maxData maxTime timeoutQ times chunks fuel (i + 1) data lastProg

/-- Concatenation of n consecutive received chunks starting at index
i (a chunk that was closure or a timeout contributes nothing). -/
def concatFrom (chunks : Nat → Option (List Nat)) (i : Nat) : Nat → List Nat
  | 0 => []
  | n + 1 => (chunks i).getD [] ++ concatFrom chunks (i + 1) n

/-! Frame lemmas: the fields each step function leaves untouched. -/

theorem probeItem_frame (pn : List Nat → Int → Bool) (st : CrawlState) (it : Item) :
    (probeItem pn st it).visited = st.visited ∧
    (probeItem pn st it).fetchLog = st.fetchLog ∧
    (probeItem pn st it).directories = st.directories ∧
    (probeItem pn st it).textFiles = st.textFiles ∧
    (probeItem pn st it).binaryFiles = st.binaryFiles ∧
    (probeItem pn st it).invalidRefs = st.invalidRefs ∧
    (probeItem pn st it).problematic = st.problematic ∧
    (probeItem pn st it).fileSizes = st.fileSizes ∧
    (probeItem pn st it).frontier = st.frontier ∧
    (probeItem pn st it).processed = st.processed := by
  refine ⟨?_, ?_, ?_, ?_, ?_, ?_, ?_, ?_, ?_, ?_⟩ <;>
    · simp only [probeItem]
      split <;> rfl

theorem processItem_frame (ch : List Nat) (cp : Int) (pn : List Nat → Int → Bool)
    (st : CrawlState) (it : Item) :
    (processItem ch cp pn st it).visited = st.visited ∧
    (processItem ch cp pn st it).fetchLog = st.fetchLog ∧
    (processItem ch cp pn st it).directories = st.directories ∧
    (processItem ch cp pn st it).problematic = st.problematic ∧
    (processItem ch cp pn st it).fileSizes = st.fileSizes ∧
    (processItem ch cp pn st it).processed = st.processed := by
  obtain ⟨p1, p2, p3, p4, p5, p6, p7, p8, p9, p10⟩ := probeItem_frame pn st it
  unfold processItem
  repeat' split
  all_goals first
    | exact ⟨rfl, rfl, rfl, rfl, rfl, rfl⟩
    | exact ⟨p1, p2, p3, p7, p8, p10⟩

theorem foldItems_frame (ch : List Nat) (cp : Int) (pn : List Nat → Int → Bool)
    (items : List Item) : ∀ st : CrawlState,
    ((items.foldl (processItem ch cp pn) st).visited = st.visited ∧
     (items.foldl (processItem ch cp pn) st).fetchLog = st.fetchLog ∧
     (items.foldl (processItem ch cp pn) st).directories = st.directories ∧
     (items.foldl (processItem ch cp pn) st).problematic = st.problematic ∧
     (items.foldl (processItem ch cp pn) st).fileSizes = st.fileSizes ∧
     (items.foldl (processItem ch cp pn) st).processed = st.processed) := by
  induction items with
  | nil => intro st; exact ⟨rfl, rfl, rfl, rfl, rfl, rfl⟩
  | cons it rest ih =>
    intro st
    obtain ⟨q1, q2, q3, q4, q5, q6⟩ := processItem_frame ch cp pn st it
    obtain ⟨r1, r2, r3, r4, r5, r6⟩ := ih (processItem ch cp pn st it)
    rw [List.foldl_cons]
    exact ⟨r1.trans q1, r2.trans q2, r3.trans q3, r4.trans q4, r5.trans q5, r6.trans q6⟩

theorem processDir_frame (sel ch : List Nat) (cp : Int) (pn : List Nat → Int → Bool)
    (items : List Item) (st : CrawlState) :
    (processDir sel ch cp pn items st).visited = st.visited ∧
    (processDir sel ch cp pn items st).fetchLog = st.fetchLog ∧
    (processDir sel ch cp pn items st).problematic = st.problematic ∧
    (processDir sel ch cp pn items st).fileSizes = st.fileSizes ∧
    (processDir sel ch cp pn items st).processed = st.processed := by
  unfold processDir
  split
  · obtain ⟨r1, r2, r3, r4, r5, r6⟩ := foldItems_frame ch cp pn items st
    exact ⟨r1, r2, r4, r5, r6⟩
  · obtain ⟨r1, r2, r3, r4, r5, r6⟩ :=
      foldItems_frame ch cp pn items { st with directories := st.directories ++ [sel] }
    exact ⟨r1, r2, r4, r5, r6⟩

theorem processLeaf_frame (sel response : List Nat) (st : CrawlState) :
    (processLeaf sel response st).visited = st.visited ∧
    (processLeaf sel response st).fetchLog = st.fetchLog ∧
    (processLeaf sel response st).directories = st.directories ∧
    (processLeaf sel response st).invalidRefs = st.invalidRefs ∧
    (processLeaf sel response st).externalServers = st.externalServers ∧
    (processLeaf sel response st).problematic = st.problematic ∧
    (processLeaf sel response st).frontier = st.frontier ∧
    (processLeaf sel response st).probeLog = st.probeLog ∧
    (processLeaf sel response st).processed = st.processed := by
  refine ⟨?_, ?_, ?_, ?_, ?_, ?_, ?_, ?_, ?_⟩ <;>
    · simp only [processLeaf]
      repeat' split
      all_goals rfl

theorem processSelector_of_visited (net : List Nat → Int → List Nat → List Nat)
    (dur : List Nat → Int → List Nat → ℚ) (pn : List Nat → Int → Bool)
    (sel ch : List Nat) (cp : Int) (st : CrawlState) (h : sel ∈ st.visited) :
    processSelector net dur pn sel ch cp st = st := by
  unfold processSelector
  simp [h]

theorem processSelector_frame (net : List Nat → Int → List Nat → List Nat)
    (dur : List Nat → Int → List Nat → ℚ) (pn : List Nat → Int → Bool)
    (sel ch : List Nat) (cp : Int) (st : CrawlState) (h : sel ∉ st.visited) :
    (processSelector net dur pn sel ch cp st).visited = st.visited ++ [sel] ∧
    (processSelector net dur pn sel ch cp st).fetchLog = st.fetchLog ++ [sel] ∧
    (processSelector net dur pn sel ch cp st).processed = st.processed := by
  unfold processSelector
  rw [if_neg h]
  dsimp only
  repeat' split
  all_goals first
    | exact ⟨rfl, rfl, rfl⟩
    | (obtain ⟨r1, r2, r3, r4, r5⟩ :=
         processDir_frame sel ch cp pn (parse_gopher_menu (net ch cp sel)) _
       exact ⟨r1, r2, r5⟩)
    | (obtain ⟨r1, r2, r3, r4, r5, r6, r7, r8, r9⟩ :=
         processLeaf_frame sel (net ch cp sel) _
       exact ⟨r1, r2, r9⟩)

/-- Appending menu lines parses homomorphically: the line loop is a
per-line filter-map with no cross-line state. -/
theorem parseMenuLines_append (l1 l2 : List (List Nat)) :
    parseMenuLines (l1 ++ l2) = parseMenuLines l1 ++ parseMenuLines l2 := by
  induction l1 with
  | nil => rfl
  | cons line rest ih =>
    simp only [List.cons_append, parseMenuLines]
    split
    · exact ih
    · match line with
      | [] => exact ih
      | t :: lrest =>
        dsimp only
        split
        · rw [show rest.append l2 = rest ++ l2 from rfl, ih, List.cons_append]
        · exact ih

theorem parseMenuLines_dot (l : List (List Nat)) :
    parseMenuLines ([46] :: l) = parseMenuLines l := by
  rw [parseMenuLines]
  simp

theorem parseMenuLines_nilline (l : List (List Nat)) :
    parseMenuLines ([] :: l) = parseMenuLines l := by
  rw [parseMenuLines]
  simp

theorem mem_insertSet_self (x : List Nat) (l : List (List Nat)) : x ∈ insertSet x l := by
  unfold insertSet
  split
  · assumption
  · simp

theorem mem_insertSet_of_mem (x y : List Nat) (l : List (List Nat)) (h : y ∈ l) :
    y ∈ insertSet x l := by
  unfold insertSet
  split
  · exact h
  · simp [h]

/-- Invariants that ignore the frontier and the processed counter and
are preserved by processSelector are preserved by the whole loop. -/
theorem crawlLoop_inv (net : List Nat → Int → List Nat → List Nat)
    (dur : List Nat → Int → List Nat → ℚ) (pn : List Nat → Int → Bool) (mq : Nat)
    (P : CrawlState → Prop)
    (hframe : ∀ st fr pr, P st → P { st with frontier := fr, processed := pr })
    (hstep : ∀ sel ch cp st, P st → P (processSelector net dur pn sel ch cp st)) :
    ∀ fuel st, P st → P (crawlLoop net dur pn mq fuel st) := by
  intro fuel
  induction fuel with
  | zero => intro st h; exact h
  | succ f ih =>
    intro st h
    have h1 : P (truncQueue mq st) := by
      unfold truncQueue
      split
      · exact hframe st (st.frontier.take mq) st.processed h
      · exact h
    rw [crawlLoop]
    split
    · exact h
    · split
      · exact h1
      · exact ih _ (hstep _ _ _ _ (hframe _ _ _ h1))

/-- The item loop never puts a selector into textFiles that is already
in binaryFiles or vice versa. -/
theorem processItem_disjoint (ch : List Nat) (cp : Int) (pn : List Nat → Int → Bool)
    (st : CrawlState) (it : Item) (h : ∀ s ∈ st.textFiles, s ∉ st.binaryFiles) :
    ∀ s ∈ (processItem ch cp pn st it).textFiles,
      s ∉ (processItem ch cp pn st it).binaryFiles := by
  unfold processItem
  split
  · exact h
  split
  · obtain ⟨p1, p2, p3, p4, p5, p6, p7, p8, p9, p10⟩ := probeItem_frame pn st it
    rw [p4, p5]
    exact h
  split
  · exact h
  split
  · split
    · rename_i hcond
      intro s hs
      rcases List.mem_append.1 hs with hs | hs
      · exact h s hs
      · simp only [List.mem_singleton] at hs
        subst hs
        exact hcond.2
    · exact h
  split
  · exact h
  split
  · split
    · rename_i hcond
      intro s hs habs
      rcases List.mem_append.1 habs with hb | hb
      · exact h s hs hb
      · simp only [List.mem_singleton] at hb
        exact hcond.2 (hb ▸ hs)
    · exact h
  · exact h

theorem foldItems_disjoint (ch : List Nat) (cp : Int) (pn : List Nat → Int → Bool)
    (items : List Item) : ∀ st : CrawlState,
    (∀ s ∈ st.textFiles, s ∉ st.binaryFiles) →
    ∀ s ∈ (items.foldl (processItem ch cp pn) st).textFiles,
      s ∉ (items.foldl (processItem ch cp pn) st).binaryFiles := by
  induction items with
  | nil => exact fun st h => h
  | cons it rest ih =>
    intro st h
    rw [List.foldl_cons]
    exact ih _ (processItem_disjoint ch cp pn st it h)

theorem processDir_disjoint (sel ch : List Nat) (cp : Int) (pn : List Nat → Int → Bool)
    (items : List Item) (st : CrawlState) (h : ∀ s ∈ st.textFiles, s ∉ st.binaryFiles) :
    ∀ s ∈ (processDir sel ch cp pn items st).textFiles,
      s ∉ (processDir sel ch cp pn items st).binaryFiles := by
  unfold processDir
  split
  · exact foldItems_disjoint ch cp pn items st h
  · exact foldItems_disjoint ch cp pn items _ h

theorem processLeaf_disjoint (sel response : List Nat) (st : CrawlState)
    (h : ∀ s ∈ st.textFiles, s ∉ st.binaryFiles) :
    ∀ s ∈ (processLeaf sel response st).textFiles,
      s ∉ (processLeaf sel response st).binaryFiles := by
  unfold processLeaf
  dsimp only
  split
  · split
    · split
      · rename_i hnotbin hnottext
        intro s hs
        rcases List.mem_append.1 hs with hs | hs
        · exact h s hs
        · simp only [List.mem_singleton] at hs
          subst hs
          exact hnotbin
      · exact h
    · exact h
  · split
    · split
      · rename_i hnottext hnotbin
        intro s hs habs
        rcases List.mem_append.1 habs with hb | hb
        · exact h s hs hb
        · simp only [List.mem_singleton] at hb
          exact hnottext (hb ▸ hs)
      · exact h
    · exact h

theorem processSelector_disjoint (net : List Nat → Int → List Nat → List Nat)
    (dur : List Nat → Int → List Nat → ℚ) (pn : List Nat → Int → Bool)
    (sel ch : List Nat) (cp : Int) (st : CrawlState)
    (h : ∀ s ∈ st.textFiles, s ∉ st.binaryFiles) :
    ∀ s ∈ (processSelector net dur pn sel ch cp st).textFiles,
      s ∉ (processSelector net dur pn sel ch cp st).binaryFiles := by
  by_cases hv : sel ∈ st.visited
  · rwa [processSelector_of_visited net dur pn sel ch cp st hv]
  · unfold processSelector
    rw [if_neg hv]
    dsimp only
    split
    · exact h
    · repeat' split
      all_goals first
        | exact processDir_disjoint sel ch cp pn _ _ h
        | exact processLeaf_disjoint sel _ _ h

/-- The Prober memo invariant: the log of Prober calls has no
duplicate (host, port) keys, and a key has been probed exactly when it
is a key of the external_servers dict. -/
def ProbeInv (st : CrawlState) : Prop :=
  st.probeLog.Nodup ∧ ∀ k, k ∈ st.probeLog ↔ k ∈ st.externalServers.map Prod.fst

theorem probeItem_probeInv (pn : List Nat → Int → Bool) (st : CrawlState) (it : Item)
    (h : ProbeInv st) : ProbeInv (probeItem pn st it) := by
  unfold probeItem
  dsimp only
  split
  · exact h
  · rename_i hmem
    constructor
    · have hnot : (it.host, it.port) ∉ st.probeLog := fun hk => hmem ((h.2 _).1 hk)
      simp [List.nodup_append, h.1, hnot]
    · intro k
      rw [List.map_append]
      simp only [List.mem_append, List.map_cons, List.map_nil, List.mem_singleton,
        List.mem_cons, List.not_mem_nil, or_false]
      rw [h.2 k]

theorem processItem_probeInv (ch : List Nat) (cp : Int) (pn : List Nat → Int → Bool)
    (st : CrawlState) (it : Item) (h : ProbeInv st) :
    ProbeInv (processItem ch cp pn st it) := by
  unfold processItem
  repeat' split
  all_goals first
    | exact h
    | exact probeItem_probeInv pn st it h

theorem foldItems_probeInv (ch : List Nat) (cp : Int) (pn : List Nat → Int → Bool)
    (items : List Item) : ∀ st : CrawlState, ProbeInv st →
    ProbeInv (items.foldl (processItem ch cp pn) st) := by
  induction items with
  | nil => exact fun st h => h
  | cons it rest ih =>
    intro st h
    rw [List.foldl_cons]
    exact ih _ (processItem_probeInv ch cp pn st it h)

theorem processDir_probeInv (sel ch : List Nat) (cp : Int) (pn : List Nat → Int → Bool)
    (items : List Item) (st : CrawlState) (h : ProbeInv st) :
    ProbeInv (processDir sel ch cp pn items st) := by
  unfold processDir
  split
  · exact foldItems_probeInv ch cp pn items st h
  · exact foldItems_probeInv ch cp pn items _ h

theorem processLeaf_probeInv (sel response : List Nat) (st : CrawlState) (h : ProbeInv st) :
    ProbeInv (processLeaf sel response st) := by
  unfold processLeaf
  dsimp only
  repeat' split
  all_goals exact h

theorem processSelector_probeInv (net : List Nat → Int → List Nat → List Nat)
    (dur : List Nat → Int → List Nat → ℚ) (pn : List Nat → Int → Bool)
    (sel ch : List Nat) (cp : Int) (st : CrawlState) (h : ProbeInv st) :
    ProbeInv (processSelector net dur pn sel ch cp st) := by
  by_cases hv : sel ∈ st.visited
  · rwa [processSelector_of_visited net dur pn sel ch cp st hv]
  · unfold processSelector
    rw [if_neg hv]
    dsimp only
    split
    · exact h
    · repeat' split
      all_goals first
        | exact processDir_probeInv sel ch cp pn _ _ h
        | exact processLeaf_probeInv sel (net ch cp sel) _ h

/-- One unfolding of the receive loop at a successor fuel value. -/
theorem recvLoop_eq_succ (maxData : Nat) (maxTime timeoutQ : ℚ) (times : Nat → ℚ)
    (chunks : Nat → Option (List Nat)) (fuel i : Nat) (data : List Nat) (lastProg : ℚ) :
    recvLoop maxData maxTime timeoutQ times chunks (fuel + 1) i data lastProg =
      (if maxData < data.length then some data
       else if maxTime < times i then some data
       else
         match chunks i with
         | some [] => some data
         | some (c :: cs) =>
           recvLoop maxData maxTime timeoutQ times chunks fuel (i + 1) (data ++ c :: cs) (times i)
         | none =>
           if timeoutQ < times i - lastProg then some data
           else recvLoop maxData maxTime timeoutQ times chunks fuel (i + 1) data lastProg) :=
  rfl

/-- Against a peer that always delivers a non-empty chunk, the receive
loop exits within its size budget: with any fuel covering
max_data_size + 2 minus the bytes already collected, the result is the
bytes collected so far extended by the consecutive chunks received up
to the iteration at which the size or wall-clock limit trips. -/
theorem recvLoop_alwaysSending (maxData : Nat) (maxTime timeoutQ : ℚ) (times : Nat → ℚ)
    (chunks : Nat → Option (List Nat))
    (hne : ∀ j, ∃ c cs, chunks j = some (c :: cs)) :
    ∀ fuel i data lastProg, maxData + 2 ≤ data.length + (fuel + 1) →
      ∃ n, recvLoop maxData maxTime timeoutQ times chunks (fuel + 1) i data lastProg =
          some (data ++ concatFrom chunks i n) ∧
        (maxData < (data ++ concatFrom chunks i n).length ∨ maxTime < times (i + n)) := by
  intro fuel
  induction fuel with
  | zero =>
    intro i data lastProg hsum
    refine ⟨0, ?_, Or.inl ?_⟩
    · rw [recvLoop_eq_succ, if_pos (by omega)]
      simp [concatFrom]
    · simp [concatFrom]
      omega
  | succ f ih =>
    intro i data lastProg hsum
    by_cases h1 : maxData < data.length
    · refine ⟨0, ?_, Or.inl ?_⟩
      · rw [recvLoop_eq_succ, if_pos h1]
        simp [concatFrom]
      · simpa [concatFrom] using h1
    · by_cases h2 : maxTime < times i
      · refine ⟨0, ?_, Or.inr ?_⟩
        · rw [recvLoop_eq_succ, if_neg h1, if_pos h2]
          simp [concatFrom]
        · simpa using h2
      · obtain ⟨c, cs, hc⟩ := hne i
        obtain ⟨n, hr, htrip⟩ := ih (i + 1) (data ++ c :: cs) (times i) (by simp; omega)
        refine ⟨n + 1, ?_, ?_⟩
        · rw [recvLoop_eq_succ, if_neg h1, if_neg h2, hc]
          dsimp only
          rw [hr]
          simp [concatFrom, hc, List.append_assoc]
        · rcases htrip with hsize | htime
          · left
            simpa [concatFrom, hc, List.append_assoc] using hsize
          · right
            have heq : i + 1 + n = i + (n + 1) := by omega
            rwa [heq] at htime

theorem ltSentinel_none (n : Nat) : ltSentinel n none = true := rfl

theorem ltSentinel_some (n m : Nat) : ltSentinel n (some m) = decide (n < m) := rfl

/-- Full specification of the per-category statistics loop:
provenance of the smallest and largest extremes (either untouched from
the accumulator or a file of the list with its recorded size),
minimality and maximality of the final extreme sizes over the list,
and monotonicity of the running extremes. -/
theorem extremesLoop_spec (sizes : List Nat → Option Nat) :
    ∀ (files : List (List Nat)) (e : Extremes),
      ((extremesLoop sizes files e).smallestFile = e.smallestFile ∧
        (extremesLoop sizes files e).smallestSize = e.smallestSize ∨
       ∃ f n, f ∈ files ∧ sizes f = some n ∧
         (extremesLoop sizes files e).smallestFile = some f ∧
         (extremesLoop sizes files e).smallestSize = some n) ∧
      ((extremesLoop sizes files e).largestFile = e.largestFile ∧
        (extremesLoop sizes files e).largestSize = e.largestSize ∨
       ∃ f n, f ∈ files ∧ sizes f = some n ∧
         (extremesLoop sizes files e).largestFile = some f ∧
         (extremesLoop sizes files e).largestSize = n) ∧
      (∀ f n, f ∈ files → sizes f = some n →
        ltSentinel n (extremesLoop sizes files e).smallestSize = false ∧
        n ≤ (extremesLoop sizes files e).largestSize) ∧
      (∀ k, ltSentinel k e.smallestSize = false →
        ltSentinel k (extremesLoop sizes files e).smallestSize = false) ∧
      e.largestSize ≤ (extremesLoop sizes files e).largestSize := by
  intro files
  induction files with
  | nil =>
    intro e
    refine ⟨Or.inl ⟨rfl, rfl⟩, Or.inl ⟨rfl, rfl⟩, ?_, fun k hk => hk, le_refl _⟩
    intro f n hf
    simp at hf
  | cons f rest ih =>
    intro e
    rw [extremesLoop]
    cases hsz : sizes f with
    | none =>
      obtain ⟨A, B, C, D, E⟩ := ih e
      refine ⟨?_, ?_, ?_, D, E⟩
      · rcases A with A | ⟨g, n, hg, hgn, h1, h2⟩
        · exact Or.inl A
        · exact Or.inr ⟨g, n, List.mem_cons_of_mem f hg, hgn, h1, h2⟩
      · rcases B with B | ⟨g, n, hg, hgn, h1, h2⟩
        · exact Or.inl B
        · exact Or.inr ⟨g, n, List.mem_cons_of_mem f hg, hgn, h1, h2⟩
      · intro g n hg hgn
        rcases List.mem_cons.1 hg with rfl | hg
        · rw [hsz] at hgn
          exact absurd hgn (by simp)
        · exact C g n hg hgn
    | some sz =>
      set e1 : Extremes :=
        if ltSentinel sz e.smallestSize then
          { e with smallestFile := some f, smallestSize := some sz }
        else e with he1
      set e2 : Extremes :=
        if e1.largestSize < sz then { e1 with largestFile := some f, largestSize := sz }
        else e1 with he2
      have hs2eq : e2.smallestFile = e1.smallestFile ∧ e2.smallestSize = e1.smallestSize := by
        rw [he2]; split <;> exact ⟨rfl, rfl⟩
      have hl1eq : e1.largestFile = e.largestFile ∧ e1.largestSize = e.largestSize := by
        rw [he1]; split <;> exact ⟨rfl, rfl⟩
      have hsmall1 : (e1.smallestFile = some f ∧ e1.smallestSize = some sz ∧
            ltSentinel sz e.smallestSize = true) ∨
          (e1.smallestFile = e.smallestFile ∧ e1.smallestSize = e.smallestSize ∧
            ltSentinel sz e.smallestSize = false) := by
        rw [he1]
        split
        · rename_i hcond
          exact Or.inl ⟨rfl, rfl, hcond⟩
        · rename_i hcond
          exact Or.inr ⟨rfl, rfl, Bool.eq_false_iff.2 hcond⟩
      have hlarge2 : (e2.largestFile = some f ∧ e2.largestSize = sz ∧ e.largestSize < sz) ∨
          (e2.largestFile = e.largestFile ∧ e2.largestSize = e.largestSize ∧
            ¬ e.largestSize < sz) := by
        rw [he2]
        split
        · rename_i hcond
          rw [hl1eq.2] at hcond
          exact Or.inl ⟨rfl, rfl, hcond⟩
        · rename_i hcond
          rw [hl1eq.2] at hcond
          exact Or.inr ⟨hl1eq.1, hl1eq.2, hcond⟩
      have hsz2 : ltSentinel sz e2.smallestSize = false := by
        rw [hs2eq.2]
        rcases hsmall1 with ⟨h1, h2, h3⟩ | ⟨h1, h2, h3⟩
        · rw [h2, ltSentinel_some]
          simp
        · rw [h2]
          exact h3
      have hlz2 : sz ≤ e2.largestSize := by
        rcases hlarge2 with ⟨h1, h2, h3⟩ | ⟨h1, h2, h3⟩
        · omega
        · omega
      have hmono2 : ∀ k, ltSentinel k e.smallestSize = false →
          ltSentinel k e2.smallestSize = false := by
        intro k hk
        rw [hs2eq.2]
        rcases hsmall1 with ⟨h1, h2, h3⟩ | ⟨h1, h2, h3⟩
        · rw [h2, ltSentinel_some]
          cases hes : e.smallestSize with
          | none =>
            rw [hes, ltSentinel_none] at hk
            exact absurd hk (by simp)
          | some m =>
            rw [hes, ltSentinel_some] at hk h3
            simp only [decide_eq_false_iff_not] at hk ⊢
            simp only [decide_eq_true_eq] at h3
            omega
        · rw [h2]
          exact hk
      have hmlz2 : e.largestSize ≤ e2.largestSize := by
        rcases hlarge2 with ⟨h1, h2, h3⟩ | ⟨h1, h2, h3⟩ <;> omega
      obtain ⟨A, B, C, D, E⟩ := ih e2
      refine ⟨?_, ?_, ?_, ?_, ?_⟩
      · rcases A with ⟨h1, h2⟩ | ⟨g, n, hg, hgn, h1, h2⟩
        · rw [hs2eq.1] at h1
          rw [hs2eq.2] at h2
          rcases hsmall1 with ⟨h3, h4, h5⟩ | ⟨h3, h4, h5⟩
          · exact Or.inr ⟨f, sz, List.mem_cons_self f rest, hsz, h1.trans h3, h2.trans h4⟩
          · exact Or.inl ⟨h1.trans h3, h2.trans h4⟩
        · exact Or.inr ⟨g, n, List.mem_cons_of_mem f hg, hgn, h1, h2⟩
      · rcases B with ⟨h1, h2⟩ | ⟨g, n, hg, hgn, h1, h2⟩
        · rcases hlarge2 with ⟨h3, h4, h5⟩ | ⟨h3, h4, h5⟩
          · exact Or.inr ⟨f, sz, List.mem_cons_self f rest, hsz, h1.trans h3, h2.trans h4⟩
          · exact Or.inl ⟨h1.trans h3, h2.trans h4⟩
        · exact Or.inr ⟨g, n, List.mem_cons_of_mem f hg, hgn, h1, h2⟩
      · intro g n hg hgn
        rcases List.mem_cons.1 hg with rfl | hg
        · rw [hsz] at hgn
          injection hgn with hgn
          subst hgn
          exact ⟨D sz hsz2, le_trans hlz2 E⟩
        · exact C g n hg hgn
      · exact fun k hk => D k (hmono2 k hk)
      · exact le_trans hmlz2 E

/-! Claim theorems. -/

/-- C1, counterexample: the byte string beginning with the PNG
signature 0x89 P N G followed by 96 printable bytes has printable
ratio 99 percent, and is_text_file classifies it as TEXT, refuting the
claim that a signature match decides binary before the ratio is
consulted and that every byte string beginning with 0x89 P N G is
classified binary. -/
theorem claim_C1_counterexample :
    hasBinarySignature ([137, 80, 78, 71] ++ List.replicate 96 65) = true ∧
    is_text_file ([137, 80, 78, 71] ++ List.replicate 96 65) = true := by
  decide

/-- C1 (amended): in is_text_file, a successful strict UTF-8 decode of
the 4096-byte sample gives text and empty data gives binary, as
claimed; but the printable-ratio test is consulted BEFORE the binary
signature check (a ratio above 0.8 gives text even for signature
matches), a signature match decides binary only when the ratio test
fails, and a non-empty sample failing both tests defaults to text, not
binary. -/
theorem claim_C1_amended (data : List Nat) :
    (is_text_file [] = false) ∧
    (data ≠ [] → utf8Valid (data.take 4096) = true → is_text_file data = true) ∧
    (data ≠ [] → utf8Valid (data.take 4096) = false →
      printableRatioHigh (data.take 4096) = true → is_text_file data = true) ∧
    (data ≠ [] → utf8Valid (data.take 4096) = false →
      printableRatioHigh (data.take 4096) = false → hasBinarySignature data = true →
      is_text_file data = false) ∧
    (data ≠ [] → utf8Valid (data.take 4096) = false →
      printableRatioHigh (data.take 4096) = false → hasBinarySignature data = false →
      is_text_file data = true) := by
  unfold is_text_file
  refine ⟨by simp, ?_, ?_, ?_, ?_⟩ <;> (intro h1 h2; simp_all)

/-- Witness for C1 (amended), at the bare 4-byte PNG signature: strict
UTF-8 fails, the printable ratio is 3 of 4 (not above 0.8), the
signature matches, and the classification is binary. -/
theorem claim_C1_amended_witness :
    ([137, 80, 78, 71] : List Nat) ≠ [] ∧
    utf8Valid (([137, 80, 78, 71] : List Nat).take 4096) = false ∧
    printableRatioHigh (([137, 80, 78, 71] : List Nat).take 4096) = false ∧
    hasBinarySignature [137, 80, 78, 71] = true ∧
    is_text_file [137, 80, 78, 71] = false :=
  ⟨by decide, by decide, by decide, by decide,
    (claim_C1_amended [137, 80, 78, 71]).2.2.2.1 (by decide) (by decide) (by decide) (by decide)⟩

/-- C2, counterexample: a root response consisting of the single
malformed menu line with type char 0 and only 2 tab fields parses to
zero Entries, and after a full crawl over it the invalid-references
set is EMPTY — the malformed line is silently dropped, not surfaced as
an invalid-reference record. -/
theorem claim_C2_counterexample :
    parse_gopher_menu [48, 102, 9, 98, 13, 10] = [] ∧
    (mainCrawl (fun _ _ sel => if sel = [] then [48, 102, 9, 98, 13, 10] else [])
      (fun _ _ _ => 0) (fun _ _ => true) [104] 70).invalidRefs = [] := by
  decide

/-- C2 (amended): a menu line that starts with a type character but
has fewer than 4 tab-separated fields produces zero Entries and is
never padded with empty strings into an Entry with an empty host or
port — but it is silently dropped by the parser, with no
invalid-reference record of any kind. -/
theorem claim_C2_amended (t : Nat) (lrest : List Nat) (rest : List (List Nat))
    (h : (splitTab lrest).length < 4) :
    parseMenuLines ((t :: lrest) :: rest) = parseMenuLines rest := by
  rw [parseMenuLines]
  split
  · rfl
  · dsimp only
    rw [if_neg (by omega)]

/-- Witness for C2 (amended): the 2-field line with type char 0
contributes nothing to the parse. -/
theorem claim_C2_amended_witness :
    (splitTab [102, 9, 98]).length < 4 ∧
    parseMenuLines [48 :: [102, 9, 98]] = parseMenuLines [] :=
  ⟨by decide, claim_C2_amended 48 [102, 9, 98] [] (by decide)⟩

/-- C7, counterexample: a response whose lines are a well-formed
entry, then the single-dot terminator line, then another well-formed
entry, parses to TWO Entries — the one after the dot line is still
produced, so the dot line does not end processing. -/
theorem claim_C7_counterexample :
    parse_gopher_menu
        [49, 97, 9, 98, 9, 99, 9, 49, 13, 10, 46, 13, 10, 49, 120, 9, 121, 9, 122, 9, 49] =
      [{ type := 49, display := [97], selector := [98], host := [99], port := 1 },
       { type := 49, display := [120], selector := [121], host := [122], port := 1 }] := by
  decide

/-- C7 (amended): in the menu line loop, a line equal to the single
dot and an empty line are each skipped individually (continue), not
treated as a terminator: the entries parsed from the surrounding lines
are exactly the entries of the lines before plus the entries of the
lines after.  In particular a response with no terminator at all is
parsed in full, as the claim states. -/
theorem claim_C7_amended (l1 l2 : List (List Nat)) :
    parseMenuLines (l1 ++ [46] :: l2) = parseMenuLines l1 ++ parseMenuLines l2 ∧
    parseMenuLines (l1 ++ [] :: l2) = parseMenuLines l1 ++ parseMenuLines l2 := by
  rw [parseMenuLines_append, parseMenuLines_append, parseMenuLines_dot, parseMenuLines_nilline]
  exact ⟨rfl, rfl⟩

/-- C3, counterexample: a run of the receive loop that is truncated by
the size limit (max 0 bytes, peer sends the byte 65 forever) and a run
against a peer that sends 65 once and then closes cleanly return the
IDENTICAL bare value - there is no truncation flag in the return value
of send_gopher_request, so the caller cannot tell a limit trip from a
complete response, refuting the together-with-a-truncation-flag part
of the claim. -/
theorem claim_C3_counterexample :
    recvLoop 0 9 10 (fun _ => 0) (fun _ => some [65]) 3 0 [] 0 = some [65] ∧
    recvLoop 9 9 10 (fun _ => 0) (fun j => if j = 0 then some [65] else some []) 3 0 [] 0 =
      some [65] := by
  constructor <;> rfl

/-- C3 (amended): the receive loop of send_gopher_request never blocks
indefinitely on either adversarial peer of the claim, but returns bare
bytes with NO truncation flag.  Against a peer that never closes and
never stops sending (every recv delivers a non-empty chunk), it exits
within max_data_size + 2 iterations, returning the bytes collected up
to the iteration at which the size cap or the wall-clock cap trips.
Against a peer that stalls indefinitely (every recv times out), with a
positive socket timeout and a clock that advances by at least the
socket timeout across each timed-out recv, it exits within 3
iterations - whatever larger budget it is given - via the idle break
or the wall-clock cap, returning exactly the bytes collected so
far. -/
theorem claim_C3_amended (maxData : Nat) (maxTime timeoutQ : ℚ) (times : Nat → ℚ)
    (chunks : Nat → Option (List Nat)) :
    ((∀ j, ∃ c cs, chunks j = some (c :: cs)) →
      ∀ i data lastProg, ∃ n,
        recvLoop maxData maxTime timeoutQ times chunks (maxData + 1 + 1) i data lastProg =
          some (data ++ concatFrom chunks i n) ∧
        (maxData < (data ++ concatFrom chunks i n).length ∨ maxTime < times (i + n))) ∧
    (0 < timeoutQ →
      (∀ j, chunks j = none) →
      (∀ j, times j + timeoutQ ≤ times (j + 1)) →
      ∀ i data lastProg, lastProg ≤ times i → ∀ fuel, 3 ≤ fuel →
        recvLoop maxData maxTime timeoutQ times chunks fuel i data lastProg = some data) := by
  constructor
  · intro hne i data lastProg
    exact recvLoop_alwaysSending maxData maxTime timeoutQ times chunks hne
      (maxData + 1) i data lastProg (by omega)
  · intro ht hstall hadv i data lastProg hlp fuel hfuel
    obtain ⟨f1, rfl⟩ : ∃ f1, fuel = f1 + 1 := ⟨fuel - 1, by omega⟩
    rw [recvLoop_eq_succ]
    by_cases h1 : maxData < data.length
    · rw [if_pos h1]
    · rw [if_neg h1]
      by_cases h2 : maxTime < times i
      · rw [if_pos h2]
      · rw [if_neg h2, hstall i]
        dsimp only
        by_cases h3 : timeoutQ < times i - lastProg
        · rw [if_pos h3]
        · rw [if_neg h3]
          obtain ⟨f2, rfl⟩ : ∃ f2, f1 = f2 + 1 := ⟨f1 - 1, by omega⟩
          rw [recvLoop_eq_succ, if_neg h1]
          by_cases h4 : maxTime < times (i + 1)
          · rw [if_pos h4]
          · rw [if_neg h4, hstall (i + 1)]
            dsimp only
            by_cases h5 : timeoutQ < times (i + 1) - lastProg
            · rw [if_pos h5]
            · rw [if_neg h5]
              obtain ⟨f3, rfl⟩ : ∃ f3, f2 = f3 + 1 := ⟨f2 - 1, by omega⟩
              rw [recvLoop_eq_succ, if_neg h1]
              by_cases h6 : maxTime < times (i + 1 + 1)
              · rw [if_pos h6]
              · have hbreak : timeoutQ < times (i + 1 + 1) - lastProg := by
                  have a1 := hadv i
                  have a2 := hadv (i + 1)
                  linarith
                rw [if_neg h6, hstall (i + 1 + 1)]
                dsimp only
                rw [if_pos hbreak]

/-- Witness for C3 (amended): a peer sending the byte 65 forever trips
the 2-byte size cap, and a fully stalled peer under a clock advancing
10 units per timed-out recv terminates with the bytes (none) collected
so far. -/
theorem claim_C3_amended_witness :
    (∃ n, recvLoop 2 9 10 (fun _ => 0) (fun _ => some [65]) (2 + 1 + 1) 0 [] 0 =
        some ([] ++ concatFrom (fun _ => some [65]) 0 n) ∧
      (2 < (([] : List Nat) ++ concatFrom (fun _ => some [65]) 0 n).length ∨
        (9 : ℚ) < (fun _ : Nat => (0 : ℚ)) (0 + n))) ∧
    recvLoop 2 9 10 (fun j => ((10 * j : Nat) : ℚ)) (fun _ => none) 3 0 [] 0 = some [] :=
  ⟨(claim_C3_amended 2 9 10 (fun _ => 0) (fun _ => some [65])).1
      (fun _ => ⟨65, [], rfl⟩) 0 [] 0,
   (claim_C3_amended 2 9 10 (fun j => ((10 * j : Nat) : ℚ)) (fun _ => none)).2
      (by norm_num) (fun _ => rfl) (fun j => by push_cast; linarith) 0 [] 0 (by norm_num)
      3 (by norm_num)⟩

/-- C4: dedup idempotence.  Processing a selector already in the
visited set leaves the crawl state completely unchanged (so visited
does not grow and the Transport is not called), and over a whole crawl
the log of selectors passed to the Transport has no duplicates: every
selector is dispatched at most once per crawl. -/
theorem claim_C4 (net : List Nat → Int → List Nat → List Nat)
    (dur : List Nat → Int → List Nat → ℚ) (pn : List Nat → Int → Bool) :
    (∀ sel ch cp st, sel ∈ st.visited → processSelector net dur pn sel ch cp st = st) ∧
    (∀ host port, ((mainCrawl net dur pn host port).fetchLog).Nodup) := by
  constructor
  · exact fun sel ch cp st h => processSelector_of_visited net dur pn sel ch cp st h
  · intro host port
    have hinv := crawlLoop_inv net dur pn 1000
      (fun st => st.fetchLog.Nodup ∧ ∀ s ∈ st.fetchLog, s ∈ st.visited)
      (fun st fr pr h => h)
      (by
        intro sel ch cp st h
        by_cases hv : sel ∈ st.visited
        · rwa [processSelector_of_visited net dur pn sel ch cp st hv]
        · obtain ⟨f1, f2, f3⟩ := processSelector_frame net dur pn sel ch cp st hv
          rw [f1, f2]
          have hnot : sel ∉ st.fetchLog := fun hmem => hv (h.2 sel hmem)
          constructor
          · simp [List.nodup_append, h.1, hnot]
          · intro s hs
            rcases List.mem_append.1 hs with hs | hs
            · exact List.mem_append_left _ (h.2 s hs)
            · exact List.mem_append_right _ hs)
      5000 (initState host port) (by simp [initState])
    exact hinv.1

/-- Witness for C4: on a state whose visited set already holds the
root selector, processing the root selector is a no-op; and a concrete
crawl produces a duplicate-free fetch log. -/
theorem claim_C4_witness :
    processSelector (fun _ _ _ => ([] : List Nat)) (fun _ _ _ => (0 : ℚ)) (fun _ _ => true)
        [] [104] 70 { initState [104] 70 with visited := [[]] } =
      { initState [104] 70 with visited := [[]] } ∧
    ((mainCrawl (fun _ _ _ => ([] : List Nat)) (fun _ _ _ => (0 : ℚ)) (fun _ _ => true)
        [104] 70).fetchLog).Nodup :=
  ⟨(claim_C4 (fun _ _ _ => []) (fun _ _ _ => 0) (fun _ _ => true)).1 [] [104] 70 _ (by decide),
   (claim_C4 (fun _ _ _ => []) (fun _ _ _ => 0) (fun _ _ => true)).2 [104] 70⟩

/-- C6, counterexample: not every per-selector failure becomes an
invalid reference or a problematic flag.  Per gopher_client_08.py the
receive loop of send_gopher_request breaks on an idle timeout or a
limit trip and RETURNS the partial non-empty bytes (line 68), so a
peer that sends 2 bytes for selector b and then stalls yields the
response BC after about 12 seconds.  The crawl then treats it as an
ordinary resource: the response is non-empty so no invalid reference
is recorded, is_problematic_resource is false (no keyword, 2 bytes is
not over 1 MB, and 12 is below both the 15 s and 25 s thresholds), and
the selector is filed as a regular text file of size 2.  Likewise a
fast oversized fetch (10485761 partial bytes in 5 s) is not
problematic either. -/
theorem claim_C6_counterexample :
    is_problematic_resource [98] 2 12 = false ∧
    is_problematic_resource [98] 10485761 5 = false ∧
    (mainCrawl
        (fun _ _ sel =>
          if sel = [] then [48, 102, 9, 98, 9, 104, 9, 55, 48, 13, 10]
          else if sel = [98] then [66, 67] else [])
        (fun _ _ sel => if sel = [98] then 12 else 0) (fun _ _ => true)
        [104] 70).invalidRefs = [] ∧
    (mainCrawl
        (fun _ _ sel =>
          if sel = [] then [48, 102, 9, 98, 9, 104, 9, 55, 48, 13, 10]
          else if sel = [98] then [66, 67] else [])
        (fun _ _ sel => if sel = [98] then 12 else 0) (fun _ _ => true)
        [104] 70).problematic = [] ∧
    (mainCrawl
        (fun _ _ sel =>
          if sel = [] then [48, 102, 9, 98, 9, 104, 9, 55, 48, 13, 10]
          else if sel = [98] then [66, 67] else [])
        (fun _ _ sel => if sel = [98] then 12 else 0) (fun _ _ => true)
        [104] 70).textFiles = [[98]] ∧
    lookupSize
        (mainCrawl
          (fun _ _ sel =>
            if sel = [] then [48, 102, 9, 98, 9, 104, 9, 55, 48, 13, 10]
            else if sel = [98] then [66, 67] else [])
          (fun _ _ sel => if sel = [98] then 12 else 0) (fun _ _ => true)
          [104] 70).fileSizes [98] = some 2 := by
  decide

/-- C6 (amended): per-selector failures never abort the crawl, but
only failures surfacing as an EMPTY response (every exception path of
send_gopher_request returns the empty byte string) are converted into
invalid-reference records; a limit-tripped or stalled fetch returns
its partial non-empty bytes and is flagged problematic only when
is_problematic_resource fires (a keyword selector, over 1 MB with
duration over 15 s, or duration at least 25 s) - below those
thresholds the partial payload is absorbed as an ordinary directory or
file.  The crawl always completes and returns a Statistics value, even
if every fetch failed (degenerate: no directories, no files, nothing
problematic, every dispatched selector an invalid reference, extremes
with no result). -/
theorem claim_C6_amended (net : List Nat → Int → List Nat → List Nat)
    (dur : List Nat → Int → List Nat → ℚ) (pn : List Nat → Int → Bool) :
    (∀ sel ch cp st, sel ∉ st.visited → net ch cp sel = [] →
      sel ∈ (processSelector net dur pn sel ch cp st).invalidRefs) ∧
    (∀ sel ch cp st, sel ∉ st.visited → net ch cp sel ≠ [] →
      is_problematic_resource sel (net ch cp sel).length (dur ch cp sel) = true →
      sel ∈ (processSelector net dur pn sel ch cp st).problematic) ∧
    (∀ host port,
      (mainCrawl (fun _ _ _ => []) dur pn host port).directories = [] ∧
      (mainCrawl (fun _ _ _ => []) dur pn host port).textFiles = [] ∧
      (mainCrawl (fun _ _ _ => []) dur pn host port).binaryFiles = [] ∧
      (mainCrawl (fun _ _ _ => []) dur pn host port).problematic = [] ∧
      (∀ s ∈ (mainCrawl (fun _ _ _ => []) dur pn host port).fetchLog,
        s ∈ (mainCrawl (fun _ _ _ => []) dur pn host port).invalidRefs) ∧
      computeExtremes (lookupSize (mainCrawl (fun _ _ _ => []) dur pn host port).fileSizes)
          (mainCrawl (fun _ _ _ => []) dur pn host port).textFiles
          (mainCrawl (fun _ _ _ => []) dur pn host port).problematic =
        { smallestFile := none, smallestSize := none, largestFile := none,
          largestSize := 0 }) := by
  refine ⟨?_, ?_, ?_⟩
  · intro sel ch cp st hv hresp
    unfold processSelector
    rw [if_neg hv]
    dsimp only
    rw [if_pos hresp]
    exact mem_insertSet_self sel _
  · intro sel ch cp st hv hresp hprob
    unfold processSelector
    rw [if_neg hv]
    dsimp only
    rw [if_neg hresp, if_pos hprob]
    split
    · obtain ⟨r1, r2, r3, r4, r5⟩ :=
        processDir_frame sel ch cp pn (parse_gopher_menu (net ch cp sel)) _
      rw [r3]
      exact mem_insertSet_self sel _
    · obtain ⟨r1, r2, r3, r4, r5, r6, r7, r8, r9⟩ := processLeaf_frame sel (net ch cp sel) _
      rw [r6]
      exact mem_insertSet_self sel _
  · intro host port
    have hinv := crawlLoop_inv (fun _ _ _ => []) dur pn 1000
      (fun st => st.directories = [] ∧ st.textFiles = [] ∧ st.binaryFiles = [] ∧
        st.problematic = [] ∧ ∀ s ∈ st.fetchLog, s ∈ st.invalidRefs)
      (fun st fr pr h => h)
      (by
        intro sel ch cp st h
        by_cases hv : sel ∈ st.visited
        · rwa [processSelector_of_visited (fun _ _ _ => []) dur pn sel ch cp st hv]
        · unfold processSelector
          rw [if_neg hv]
          dsimp only
          rw [if_pos rfl]
          refine ⟨h.1, h.2.1, h.2.2.1, h.2.2.2.1, ?_⟩
          intro s hs
          rcases List.mem_append.1 hs with hs | hs
          · exact mem_insertSet_of_mem sel s _ (h.2.2.2.2 s hs)
          · simp only [List.mem_singleton] at hs
            subst hs
            exact mem_insertSet_self s _)
      5000 (initState host port) (by simp [initState])
    obtain ⟨h1, h2, h3, h4, h5⟩ := hinv
    refine ⟨h1, h2, h3, h4, h5, ?_⟩
    show computeExtremes _ (mainCrawl (fun _ _ _ => []) dur pn host port).textFiles _ = _
    rw [show (mainCrawl (fun _ _ _ => []) dur pn host port).textFiles = [] from h2]
    rfl

/-- Witness for C6 (amended): an empty-response fetch of the root
selector lands in the invalid references; a non-empty 25-second fetch
is flagged problematic; and the all-fail crawl completes with the root
selector dispatched and recorded invalid. -/
theorem claim_C6_amended_witness :
    ([] : List Nat) ∈
      (processSelector (fun _ _ _ => ([] : List Nat)) (fun _ _ _ => (0 : ℚ)) (fun _ _ => true)
        [] [104] 70 (initState [104] 70)).invalidRefs ∧
    ([98] : List Nat) ∈
      (processSelector (fun _ _ _ => ([66] : List Nat)) (fun _ _ _ => (25 : ℚ))
        (fun _ _ => true) [98] [104] 70 (initState [104] 70)).problematic ∧
    ([] : List Nat) ∈
      (mainCrawl (fun _ _ _ => []) (fun _ _ _ => (0 : ℚ)) (fun _ _ => true) [104] 70).fetchLog ∧
    ([] : List Nat) ∈
      (mainCrawl (fun _ _ _ => []) (fun _ _ _ => (0 : ℚ)) (fun _ _ => true)
        [104] 70).invalidRefs ∧
    (mainCrawl (fun _ _ _ => []) (fun _ _ _ => (0 : ℚ)) (fun _ _ => true) [104] 70).directories
      = [] :=
  ⟨(claim_C6_amended (fun _ _ _ => []) (fun _ _ _ => 0) (fun _ _ => true)).1 [] [104] 70
      (initState [104] 70) (by decide) rfl,
   (claim_C6_amended (fun _ _ _ => [66]) (fun _ _ _ => 25) (fun _ _ => true)).2.1 [98] [104] 70
      (initState [104] 70) (by decide) (by decide) (by decide),
   by decide,
   ((claim_C6_amended (fun _ _ _ => []) (fun _ _ _ => 0) (fun _ _ => true)).2.2 [104]
      70).2.2.2.2.1 [] (by decide),
   ((claim_C6_amended (fun _ _ _ => []) (fun _ _ _ => 0) (fun _ _ => true)).2.2 [104] 70).1⟩

set_option maxRecDepth 100000

/-- C5, counterexample: the root menu parses to exactly one Entry,
whose (host, port) = (o, 70) differs from the current connection
(h, 70) but whose selector is 256 characters long.  The crawl skips it
before the cross-server check, so the whole crawl performs ZERO Prober
calls for that distinct (host, port) rather than exactly one, and
records no reachability result for it. -/
theorem claim_C5_counterexample :
    (parse_gopher_menu
        ([49, 100, 9] ++ List.replicate 256 97 ++ [9, 111, 9, 55, 48, 13, 10])).map
        (fun it => (it.host, it.port, it.selector.length)) = [([111], 70, 256)] ∧
    is_same_server [104] 70 [111] 70 = false ∧
    (mainCrawl
        (fun _ _ sel =>
          if sel = [] then [49, 100, 9] ++ List.replicate 256 97 ++ [9, 111, 9, 55, 48, 13, 10]
          else [])
        (fun _ _ _ => 0) (fun _ _ => true) [104] 70).probeLog = [] ∧
    (mainCrawl
        (fun _ _ sel =>
          if sel = [] then [49, 100, 9] ++ List.replicate 256 97 ++ [9, 111, 9, 55, 48, 13, 10]
          else [])
        (fun _ _ _ => 0) (fun _ _ => true) [104] 70).externalServers = [] := by
  decide

/-- C5 (amended): a parsed Entry that fails the is_same_server test
against the current connection is never pushed onto the frontier (and
hence never fetched); if its selector is at most 255 characters long
and its (host, port) key is new, it triggers one Prober call whose
result is cached, while a key already probed triggers nothing; and
across a whole crawl each distinct (host, port) key is passed to the
Prober at most once, with the cached boolean kept for the crawl
lifetime (a key is in the cache exactly when it was probed).  Entries
with selectors longer than 255 characters are skipped before the
cross-server check and trigger no Prober call at all. -/
theorem claim_C5_amended (net : List Nat → Int → List Nat → List Nat)
    (dur : List Nat → Int → List Nat → ℚ) (pn : List Nat → Int → Bool) :
    (∀ ch cp st it, is_same_server ch cp it.host it.port = false →
      (processItem ch cp pn st it).frontier = st.frontier) ∧
    (∀ ch cp st it, is_same_server ch cp it.host it.port = false →
      it.selector.length ≤ 255 → (it.host, it.port) ∉ st.externalServers.map Prod.fst →
      (processItem ch cp pn st it).probeLog = st.probeLog ++ [(it.host, it.port)] ∧
      (processItem ch cp pn st it).externalServers =
        st.externalServers ++ [((it.host, it.port), check_external_server pn it.host it.port)]) ∧
    (∀ ch cp st it, (it.host, it.port) ∈ st.externalServers.map Prod.fst →
      (processItem ch cp pn st it).probeLog = st.probeLog ∧
      (processItem ch cp pn st it).externalServers = st.externalServers) ∧
    (∀ ch cp st it, 255 < it.selector.length → processItem ch cp pn st it = st) ∧
    (∀ host port, ((mainCrawl net dur pn host port).probeLog).Nodup ∧
      ∀ k, k ∈ (mainCrawl net dur pn host port).probeLog ↔
        k ∈ (mainCrawl net dur pn host port).externalServers.map Prod.fst) := by
  refine ⟨?_, ?_, ?_, ?_, ?_⟩
  · intro ch cp st it hss
    unfold processItem
    split
    · rfl
    rw [if_pos (by simp [hss])]
    exact (probeItem_frame pn st it).2.2.2.2.2.2.2.2.1
  · intro ch cp st it hss hlen hmem
    unfold processItem probeItem
    rw [if_neg (by omega), if_pos (by simp [hss])]
    dsimp only
    rw [if_neg hmem]
    exact ⟨rfl, rfl⟩
  · intro ch cp st it hmem
    unfold processItem
    repeat' split
    all_goals first
      | exact ⟨rfl, rfl⟩
      | (simp only [probeItem]
         rw [if_pos hmem]
         exact ⟨rfl, rfl⟩)
  · intro ch cp st it hlen
    unfold processItem
    rw [if_pos hlen]
  · intro host port
    exact crawlLoop_inv net dur pn 1000 ProbeInv
      (fun st fr pr h => h)
      (fun sel ch cp st h => processSelector_probeInv net dur pn sel ch cp st h)
      5000 (initState host port) (by simp [initState, ProbeInv])

/-- Witness for C5 (amended): a concrete cross-server entry leaves the
frontier unchanged, and a concrete crawl has a duplicate-free probe
log. -/
theorem claim_C5_amended_witness :
    is_same_server [104] 70 [111] 70 = false ∧
    (processItem [104] 70 (fun _ _ => true) (initState [104] 70)
        { type := 49, display := [], selector := [47], host := [111], port := 70 }).frontier =
      (initState [104] 70).frontier ∧
    ((mainCrawl (fun _ _ _ => ([] : List Nat)) (fun _ _ _ => (0 : ℚ)) (fun _ _ => true)
        [104] 70).probeLog).Nodup :=
  ⟨by decide,
   (claim_C5_amended (fun _ _ _ => []) (fun _ _ _ => 0) (fun _ _ => true)).1 [104] 70
     (initState [104] 70) _ (by decide),
   ((claim_C5_amended (fun _ _ _ => []) (fun _ _ _ => 0)
      (fun _ _ => true)).2.2.2.2 [104] 70).1⟩

/-- C8, counterexample: for the host x\x01y containing the control
character 1, the Prober rejects without reaching the connection
attempt: with a network oracle that reports every server reachable,
check_external_server still returns false, and a full crawl records
(x\x01y, 70) as down.  Moreover the human-facing report does NOT
exclude this host: its characters are all at most 127, so it passes
the report filter, which only drops hosts with characters above
127. -/
theorem claim_C8_counterexample :
    probeReachesConnect [120, 1, 121] = false ∧
    check_external_server (fun _ _ => true) [120, 1, 121] 70 = false ∧
    (mainCrawl
        (fun _ _ sel =>
          if sel = [] then [49, 100, 9, 47, 115, 9, 120, 1, 121, 9, 55, 48, 13, 10] else [])
        (fun _ _ _ => 0) (fun _ _ => true) [104] 70).externalServers =
      [(([120, 1, 121], 70), false)] ∧
    reportedServers [(([120, 1, 121], 70), false)] = [(([120, 1, 121], 70), false)] := by
  decide

/-- C8 (amended): the Prober first strips Python whitespace from the
host; a (host, port) key whose host STILL contains a character below
space or above tilde after that strip is rejected WITHOUT a connection
attempt - the result is false independently of the actual network and
the instrumented control flow never reaches the connect call - while a
host whose offending characters were all strippable whitespace (such
as a leading newline) is stripped and probed normally, the connection
going to the stripped host.  The human-facing report excludes only
hosts containing characters above 127, so entries whose host
characters are all at most 127 (control characters included) are still
reported. -/
theorem claim_C8_amended (pn pn2 : List Nat → Int → Bool) (host : List Nat) (port : Int)
    (ext : List ((List Nat × Int) × Bool)) (e : (List Nat × Int) × Bool)
    (h : (pyStrip host).any (fun c => c < 32 || 126 < c) = true) :
    check_external_server pn host port = false ∧
    check_external_server pn host port = check_external_server pn2 host port ∧
    probeReachesConnect host = false ∧
    (∀ host2, pyStrip host2 ≠ [] →
      (pyStrip host2).all (fun c => 32 ≤ c && c ≤ 126) = true →
      check_external_server pn host2 port = pn (pyStrip host2) port) ∧
    (e ∈ ext → e.1.1.all (fun c => c ≤ 127) = true → e ∈ reportedServers ext) := by
  refine ⟨?_, ?_, ?_, ?_, ?_⟩
  · unfold check_external_server
    split
    · rfl
    · rw [if_pos h]
  · unfold check_external_server
    split
    · rfl
    · rw [if_pos h, if_pos h]
  · obtain ⟨c, hc, hcc⟩ := List.any_eq_true.1 h
    simp only [Bool.or_eq_true, decide_eq_true_eq] at hcc
    rw [Bool.eq_false_iff]
    intro habs
    unfold probeReachesConnect at habs
    rw [Bool.and_eq_true] at habs
    have h2 := List.all_eq_true.1 habs.2 c hc
    simp only [Bool.and_eq_true, decide_eq_true_eq] at h2
    omega
  · intro host2 hne hgood
    unfold check_external_server
    rw [if_neg hne]
    have hnot : ¬ (pyStrip host2).any (fun c => c < 32 || 126 < c) = true := by
      intro habs
      obtain ⟨c, hc, hcc⟩ := List.any_eq_true.1 habs
      have h2 := List.all_eq_true.1 hgood c hc
      simp only [Bool.or_eq_true, decide_eq_true_eq] at hcc
      simp only [Bool.and_eq_true, decide_eq_true_eq] at h2
      omega
    rw [if_neg hnot]
  · intro he hall
    unfold reportedServers
    rw [List.mem_filter]
    exact ⟨he, hall⟩

/-- Witness for C8 (amended): the host x\x01y (control character not
strippable) yields false against both an all-up and an all-down
network without reaching the connect; the host newline-h is stripped
and probed as h, yielding the network's answer; and the cached entry
for x\x01y passes the report filter. -/
theorem claim_C8_amended_witness :
    ((pyStrip [120, 1, 121]).any (fun c => c < 32 || 126 < c) = true) ∧
    (check_external_server (fun _ _ => true) [120, 1, 121] 70 = false ∧
     check_external_server (fun _ _ => true) [120, 1, 121] 70 =
       check_external_server (fun _ _ => false) [120, 1, 121] 70 ∧
     probeReachesConnect [120, 1, 121] = false ∧
     check_external_server (fun _ _ => true) [10, 104] 70 =
       (fun _ _ => true) (pyStrip [10, 104]) (70 : Int) ∧
     ((([120, 1, 121], (70 : Int)), false) ∈ [(([120, 1, 121], (70 : Int)), false)] →
      (([120, 1, 121], (70 : Int)), false).1.1.all (fun c => c ≤ 127) = true →
      (([120, 1, 121], (70 : Int)), false) ∈
        reportedServers [(([120, 1, 121], (70 : Int)), false)])) :=
  ⟨by decide,
   (claim_C8_amended (fun _ _ => true) (fun _ _ => false) [120, 1, 121] 70
      [(([120, 1, 121], 70), false)] (([120, 1, 121], 70), false) (by decide)).1,
   (claim_C8_amended (fun _ _ => true) (fun _ _ => false) [120, 1, 121] 70
      [(([120, 1, 121], 70), false)] (([120, 1, 121], 70), false) (by decide)).2.1,
   (claim_C8_amended (fun _ _ => true) (fun _ _ => false) [120, 1, 121] 70
      [(([120, 1, 121], 70), false)] (([120, 1, 121], 70), false) (by decide)).2.2.1,
   (claim_C8_amended (fun _ _ => true) (fun _ _ => false) [120, 1, 121] 70
      [(([120, 1, 121], 70), false)] (([120, 1, 121], 70), false) (by decide)).2.2.2.1
     [10, 104] (by decide) (by decide),
   (claim_C8_amended (fun _ _ => true) (fun _ _ => false) [120, 1, 121] 70
      [(([120, 1, 121], 70), false)] (([120, 1, 121], 70), false) (by decide)).2.2.2.2⟩

/-- C10: at every point of the crawl no selector is in both
text_files and binary_files.  Each step of the crawl preserves
disjointness of the two lists (every site that appends checks
membership in the other list first, so a classification is never
reassigned), and consequently the final state of any crawl has
disjoint lists. -/
theorem claim_C10 (net : List Nat → Int → List Nat → List Nat)
    (dur : List Nat → Int → List Nat → ℚ) (pn : List Nat → Int → Bool) :
    (∀ sel ch cp st, (∀ s ∈ st.textFiles, s ∉ st.binaryFiles) →
      ∀ s ∈ (processSelector net dur pn sel ch cp st).textFiles,
        s ∉ (processSelector net dur pn sel ch cp st).binaryFiles) ∧
    (∀ host port, ∀ s ∈ (mainCrawl net dur pn host port).textFiles,
      s ∉ (mainCrawl net dur pn host port).binaryFiles) := by
  constructor
  · exact fun sel ch cp st h => processSelector_disjoint net dur pn sel ch cp st h
  · intro host port
    exact crawlLoop_inv net dur pn 1000
      (fun st => ∀ s ∈ st.textFiles, s ∉ st.binaryFiles)
      (fun st fr pr h => h)
      (fun sel ch cp st h => processSelector_disjoint net dur pn sel ch cp st h)
      5000 (initState host port) (by simp [initState])

/-- Witness for C10: a crawl whose root menu declares the text file
with selector a, which is then fetched and classified as text, ends
with that selector in text_files and not in binary_files. -/
theorem claim_C10_witness :
    ([97] : List Nat) ∈
      (mainCrawl
        (fun _ _ sel =>
          if sel = [] then [48, 102, 9, 97, 9, 104, 9, 55, 48, 13, 10] else [104, 105])
        (fun _ _ _ => (0 : ℚ)) (fun _ _ => true) [104] 70).textFiles ∧
    ([97] : List Nat) ∉
      (mainCrawl
        (fun _ _ sel =>
          if sel = [] then [48, 102, 9, 97, 9, 104, 9, 55, 48, 13, 10] else [104, 105])
        (fun _ _ _ => (0 : ℚ)) (fun _ _ => true) [104] 70).binaryFiles :=
  ⟨by decide,
   (claim_C10
      (fun _ _ sel =>
        if sel = [] then [48, 102, 9, 97, 9, 104, 9, 55, 48, 13, 10] else [104, 105])
      (fun _ _ _ => 0) (fun _ _ => true)).2 [104] 70 [97] (by decide)⟩

/-- C9: size extremes are computed only over non-problematic files - a
file flagged problematic is filtered out before the loop and can never
be the smallest or largest; any reported extreme belongs to the clean
collection, carries its genuinely recorded size and is
minimal (resp. maximal) among the clean sized files; when no clean
file has a recorded size the computation yields no result (both
extreme files stay none); and whatever the report guard prints carries
a real size, never the float-inf initial sentinel. -/
theorem claim_C9 (sizes : List Nat → Option Nat) (files problematic : List (List Nat)) :
    (∀ f, (computeExtremes sizes files problematic).smallestFile = some f →
      f ∉ problematic ∧ f ∈ files ∧
      ∃ n, sizes f = some n ∧
        (computeExtremes sizes files problematic).smallestSize = some n ∧
        ∀ g m, g ∈ files → g ∉ problematic → sizes g = some m → n ≤ m) ∧
    (∀ f, (computeExtremes sizes files problematic).largestFile = some f →
      f ∉ problematic ∧ f ∈ files ∧
      ∃ n, sizes f = some n ∧
        (computeExtremes sizes files problematic).largestSize = n ∧
        ∀ g m, g ∈ files → g ∉ problematic → sizes g = some m → m ≤ n) ∧
    ((∀ g, g ∈ files → g ∉ problematic → sizes g = none) →
      (computeExtremes sizes files problematic).smallestFile = none ∧
      (computeExtremes sizes files problematic).largestFile = none) ∧
    (∀ f s, reportExtreme (computeExtremes sizes files problematic).smallestFile
        (computeExtremes sizes files problematic).smallestSize = some (f, s) → s ≠ none) := by
  have hco : computeExtremes sizes files problematic =
      extremesLoop sizes (files.filter (fun f => f ∉ problematic)) ⟨none, none, none, 0⟩ := rfl
  rw [hco]
  obtain ⟨A, B, C, D, E⟩ :=
    extremesLoop_spec sizes (files.filter (fun f => f ∉ problematic)) ⟨none, none, none, 0⟩
  refine ⟨?_, ?_, ?_, ?_⟩
  · intro f hf
    rcases A with ⟨h1, h2⟩ | ⟨g, n, hg, hgn, h1, h2⟩
    · exact absurd (hf.symm.trans h1) (by simp)
    · obtain rfl : g = f := by
        rw [hf] at h1
        exact (Option.some.inj h1).symm
      rw [List.mem_filter] at hg
      refine ⟨by simpa using hg.2, hg.1, n, hgn, h2, ?_⟩
      intro g2 m hg2 hgp2 hgm2
      have hmin := (C g2 m (List.mem_filter.2 ⟨hg2, by simpa⟩) hgm2).1
      rw [h2, ltSentinel_some] at hmin
      simp only [decide_eq_false_iff_not] at hmin
      omega
  · intro f hf
    rcases B with ⟨h1, h2⟩ | ⟨g, n, hg, hgn, h1, h2⟩
    · exact absurd (hf.symm.trans h1) (by simp)
    · obtain rfl : g = f := by
        rw [hf] at h1
        exact (Option.some.inj h1).symm
      rw [List.mem_filter] at hg
      refine ⟨by simpa using hg.2, hg.1, n, hgn, h2, ?_⟩
      intro g2 m hg2 hgp2 hgm2
      have hmax := (C g2 m (List.mem_filter.2 ⟨hg2, by simpa⟩) hgm2).2
      omega
  · intro hall
    constructor
    · rcases A with ⟨h1, h2⟩ | ⟨g, n, hg, hgn, h1, h2⟩
      · exact h1
      · rw [List.mem_filter] at hg
        exact absurd hgn (by rw [hall g hg.1 (by simpa using hg.2)]; simp)
    · rcases B with ⟨h1, h2⟩ | ⟨g, n, hg, hgn, h1, h2⟩
      · exact h1
      · rw [List.mem_filter] at hg
        exact absurd hgn (by rw [hall g hg.1 (by simpa using hg.2)]; simp)
  · intro f s hr
    rcases A with ⟨h1, h2⟩ | ⟨g, n, hg, hgn, h1, h2⟩
    · rw [h1] at hr
      exact absurd hr (by simp [reportExtreme])
    · rw [h1] at hr
      simp only [reportExtreme] at hr
      by_cases hg0 : g = []
      · rw [if_pos hg0] at hr
        exact absurd hr (by simp)
      · rw [if_neg hg0, Option.some.injEq, Prod.mk.injEq] at hr
        rw [← hr.2, h2]
        simp

/-- Witness for C9: with files a (10 bytes) and b (flagged
problematic), the smallest text file is a, it is clean, its size is
real, and it is minimal among clean sized files. -/
theorem claim_C9_witness :
    (computeExtremes (fun f => if f = [97] then some 10 else none) [[97], [98]]
        [[98]]).smallestFile = some [97] ∧
    ([97] ∉ ([[98]] : List (List Nat)) ∧ [97] ∈ ([[97], [98]] : List (List Nat)) ∧
      ∃ n, (fun f => if f = [97] then some 10 else none) [97] = some n ∧
        (computeExtremes (fun f => if f = [97] then some 10 else none) [[97], [98]]
          [[98]]).smallestSize = some n ∧
        ∀ g m, g ∈ ([[97], [98]] : List (List Nat)) → g ∉ ([[98]] : List (List Nat)) →
          (fun f => if f = [97] then some 10 else none) g = some m → n ≤ m) :=
  ⟨by decide,
   (claim_C9 (fun f => if f = [97] then some 10 else none) [[97], [98]] [[98]]).1 [97]
     (by decide)⟩

end GopherCrawl
